import Mathlib

/-!
Verification of the sandfly-entropyscan classification engine.

The Go sources are embedded shallowly:

* `fileutils/fileutils.go` : `IsElfType`, `Entropy`, `HashMD5`, `HashSHA1`,
  `HashSHA256`, `HashSHA512` become Lean functions over a `Target`, which
  records the path string together with how the operating system presents
  the path (unopenable, openable but not a regular file, or a regular file
  with known byte content).
* `sandfly-entropyscan.go` : `checkFilePath` (the classifier) and the
  process-scan loop of `main` become functions producing a `CheckResult`,
  where Go's `log.Fatalf` (process termination) is the `fatal` constructor
  and a returned non-nil `error` is the `err` constructor.

Go `float64` arithmetic (`math.Log2`, `math.Round`) is modelled over `ℝ`;
`math.Round` rounds half away from zero, which on the nonnegative values
produced by the entropy sum agrees with Mathlib's `round` (half up).
The four hashing primitives from Go's crypto standard library are external
to this repository and are passed in as abstract digest functions
(`HashAlgs`); the repository's own code only routes bytes to them.
-/

set_option maxRecDepth 10000

namespace EntropyScan

/-- A byte as stored in a file (Go `byte` = `uint8`). -/
abbrev Byte := Fin 256

/-- How the operating system presents a scan target to `os.Open`/`Stat`:
`noFile` means `os.Open` fails (nonexistent path, dangling/broken symbolic
link, permission failure); `notRegular` means the path opens and stats but
the mode is not a regular file (device, FIFO, directory); `regular c` is a
regular file whose full byte content is `c` (its `Stat` size is
`c.length`). -/
inductive FileKind where
  | noFile : FileKind
  | notRegular : FileKind
  | regular (content : List Byte) : FileKind
deriving DecidableEq

/-- A classification target: a path plus what the filesystem holds there. -/
structure Target where
  path : String
  kind : FileKind
deriving DecidableEq

/-- Go `constMaxFileSize = 2147483648` (2 GiB) from fileutils.go. -/
def constMaxFileSize : Nat := 2147483648

/-- Go `constMagicNumRead = 4` from fileutils.go. -/
def constMagicNumRead : Nat := 4

/-- Go `constMagicNumElf = "7f454c46"` hex-decoded to its four bytes. -/
def constMagicNumElf : List Byte := [0x7f, 0x45, 0x4c, 0x46]

/-- Go `constMinPID = 1` from sandfly-entropyscan.go. -/
def constMinPID : Nat := 1

/-- Go `constMaxPID = 4194304` from sandfly-entropyscan.go. -/
def constMaxPID : Nat := 4194304

/-- Go `constProcDir = "/proc"` from sandfly-entropyscan.go. -/
def constProcDir : String := "/proc"

/-- Embedding of `fileutils.IsElfType`: empty path is an argument error;
an `os.Open` failure is propagated; a non-regular file or a file shorter
than 4 bytes is a benign `false`; otherwise the first 4 bytes are compared
with the ELF magic number. -/
def IsElfType (t : Target) : Except String Bool :=
  if t.path = "" then
    Except.error "must provide a path to file to get ELF type"
  else
    match t.kind with
    | FileKind.noFile =>
        Except.error ("open (" ++ t.path ++ "): cannot open")
    | FileKind.notRegular => Except.ok false
    | FileKind.regular content =>
        if content.length < constMagicNumRead then Except.ok false
        else if content.take constMagicNumRead = constMagicNumElf then Except.ok true
        else Except.ok false

/-- Go `px := float64(byteCounts[i]) / float64(size)` in
`fileutils.Entropy`: reading the file in 256000-byte chunks and
incrementing `byteCounts` per byte makes `byteCounts[i]` the number of
occurrences of byte value `i` in the whole content, and `size` is the
`Stat` size, i.e. the content length. -/
noncomputable def byteProb (c : List Byte) (i : Byte) : ℝ :=
  (c.count i : ℝ) / (c.length : ℝ)

/-- The accumulation loop `for i := 0; i < 256; i++` of
`fileutils.Entropy`: terms with `px > 0` contribute `-px * math.Log2(px)`. -/
noncomputable def entropyRaw (c : List Byte) : ℝ :=
  ∑ i : Byte,
    (if 0 < byteProb c i then -(byteProb c i) * Real.logb 2 (byteProb c i) else 0)

/-- Go `math.Round(entropy*100) / 100` (round to nearest two decimals). -/
noncomputable def roundHundredths (x : ℝ) : ℝ := ((round (x * 100) : ℤ) : ℝ) / 100

/-- Embedding of `fileutils.Entropy`: argument/open/regular-file checks,
the zero-size early return, the 2 GiB size ceiling, then the rounded
histogram entropy. -/
noncomputable def Entropy (t : Target) : Except String ℝ :=
  if t.path = "" then
    Except.error "must provide a path to file to get entropy"
  else
    match t.kind with
    | FileKind.noFile =>
        Except.error ("couldn't open path (" ++ t.path ++ ") to get entropy")
    | FileKind.notRegular =>
        Except.error ("file (" ++ t.path ++ ") is not a regular file to calculate entropy")
    | FileKind.regular c =>
        if c.length = 0 then Except.ok 0
        else if constMaxFileSize < c.length then
          Except.error "file size is too large to calculate entropy"
        else Except.ok (roundHundredths (entropyRaw c))

/-- The four digest primitives from Go's crypto standard library
(`md5.New`/`sha1.New`/`sha256.New`/`sha512.New` fed through `io.Copy` and
hex-encoded).  They are external library code, so they enter the model as
abstract functions from byte content to a hex string. -/
structure HashAlgs where
  md5 : List Byte → String
  sha1 : List Byte → String
  sha256 : List Byte → String
  sha512 : List Byte → String

/-- Common body of `fileutils.HashMD5/HashSHA1/HashSHA256/HashSHA512`,
which are textually identical in Go up to the digest primitive used:
argument/open/regular-file checks, the zero-size early return of the empty
string, the 2 GiB size ceiling, then the digest of the full content. -/
def hashFile (alg : List Byte → String) (t : Target) : Except String String :=
  if t.path = "" then
    Except.error "must provide a path to file to hash"
  else
    match t.kind with
    | FileKind.noFile =>
        Except.error ("couldn't open path (" ++ t.path ++ ")")
    | FileKind.notRegular =>
        Except.error ("file (" ++ t.path ++ ") is not a regular file to calculate hash")
    | FileKind.regular c =>
        if c.length = 0 then Except.ok ""
        else if constMaxFileSize < c.length then
          Except.error "file size is too large to calculate hash"
        else Except.ok (alg c)

/-- Embedding of `fileutils.HashMD5`. -/
def HashMD5 (a : HashAlgs) (t : Target) : Except String String := hashFile a.md5 t

/-- Embedding of `fileutils.HashSHA1`. -/
def HashSHA1 (a : HashAlgs) (t : Target) : Except String String := hashFile a.sha1 t

/-- Embedding of `fileutils.HashSHA256`. -/
def HashSHA256 (a : HashAlgs) (t : Target) : Except String String := hashFile a.sha256 t

/-- Embedding of `fileutils.HashSHA512`. -/
def HashSHA512 (a : HashAlgs) (t : Target) : Except String String := hashFile a.sha512 t

/-- Go struct `hashes` from sandfly-entropyscan.go; Go zero value is the
empty string for every field. -/
structure hashes where
  md5 : String := ""
  sha1 : String := ""
  sha256 : String := ""
  sha512 : String := ""
deriving DecidableEq

/-- Go struct `fileData` from sandfly-entropyscan.go. -/
structure fileData where
  path : String
  name : String
  entropy : ℝ
  elf : Bool
  hash : hashes

/-- Go `_, fileName := filepath.Split(filePath)`: the component after the
final path separator. -/
def baseName (p : String) : String := (p.splitOn "/").getLastD ""

/-- Outcome of `checkFilePath`: an `ok fileData` together with a nil error,
a returned non-nil error (`err`), or program termination through
`log.Fatalf` (`fatal`). -/
inductive CheckResult where
  | ok (info : fileData) : CheckResult
  | err (e : String) : CheckResult
  | fatal (msg : String) : CheckResult

/-- Embedding of `checkFilePath` from sandfly-entropyscan.go.  An error
from `IsElfType` is returned to the caller; entropy is computed when
`elfOnly && isElfType` and (separately) when `!elfOnly`, otherwise the
sentinel `-1` stands; an entropy error hits `log.Fatalf`.  When
`fileInfo.entropy >= entropyMaxVal` the four hashes are computed in order,
each error hitting `log.Fatalf`. -/
noncomputable def checkFilePath (a : HashAlgs) (t : Target) (elfOnly : Bool)
    (entropyMaxVal : ℝ) : CheckResult :=
  match IsElfType t with
  | Except.error e => CheckResult.err e
  | Except.ok isElf =>
    let fileName := baseName t.path
    match (if elfOnly && isElf then Entropy t else Except.ok (-1 : ℝ)) with
    | Except.error e => CheckResult.fatal e
    | Except.ok ent₁ =>
      match (if !elfOnly then Entropy t else Except.ok ent₁) with
      | Except.error e => CheckResult.fatal e
      | Except.ok ent =>
        if entropyMaxVal ≤ ent then
          match HashMD5 a t with
          | Except.error e => CheckResult.fatal e
          | Except.ok hMd5 =>
            match HashSHA1 a t with
            | Except.error e => CheckResult.fatal e
            | Except.ok hSha1 =>
              match HashSHA256 a t with
              | Except.error e => CheckResult.fatal e
              | Except.ok hSha256 =>
                match HashSHA512 a t with
                | Except.error e => CheckResult.fatal e
                | Except.ok hSha512 =>
                  CheckResult.ok
                    { path := t.path, name := fileName, entropy := ent, elf := isElf,
                      hash :=
                        { md5 := hMd5, sha1 := hSha1, sha256 := hSha256, sha512 := hSha512 } }
        else
          CheckResult.ok
            { path := t.path, name := fileName, entropy := ent, elf := isElf, hash := {} }

/-- Embedding of the `procOnly` loop of `main`: each candidate is checked
with `elfOnly` forced `true`; a non-nil error from `checkFilePath` skips
the candidate; `log.Fatalf` inside `checkFilePath` ends the program (no
further candidate is processed); an `ok` record is printed when its
entropy meets the threshold.  The list collects the printed records. -/
noncomputable def procSweep (a : HashAlgs) (entropyMaxVal : ℝ) :
    List Target → List fileData
  | [] => []
  | t :: ts =>
    match checkFilePath a t true entropyMaxVal with
    | CheckResult.err _ => procSweep a entropyMaxVal ts
    | CheckResult.fatal _ => []
    | CheckResult.ok info =>
      (if entropyMaxVal ≤ info.entropy then [info] else []) ++ procSweep a entropyMaxVal ts

/-- Embedding of `genPIDExePaths`: one `path.Join(constProcDir,
strconv.Itoa(pid), "/exe")` per `pid` in `[constMinPID, constMaxPID)`, in
loop order, with a nil error. -/
def genPIDExePaths : Except String (List String) :=
  Except.ok ((List.range' constMinPID (constMaxPID - constMinPID)).map
    (fun pid => constProcDir ++ "/" ++ toString pid ++ "/exe"))

/-- The spec's description of the entropy accumulation (§4.2): for each of
the 256 symbols with observed probability `p = count/size > 0`, accumulate
`-p * log2(p)`; symbols with zero occurrences contribute nothing.  Stated
from the spec's words, to be compared with the source-derived
`entropyRaw`. -/
noncomputable def specShannonEntropy (c : List Byte) : ℝ :=
  ∑ i : Byte,
    (if 0 < c.count i then
      -((c.count i : ℝ) / (c.length : ℝ)) * Real.logb 2 ((c.count i : ℝ) / (c.length : ℝ))
    else 0)

/-- A concrete digest-primitive instantiation used by concrete-input
theorems: each primitive returns the well-known empty-input digest of its
algorithm, regardless of input. -/
def demoAlgs : HashAlgs where
  md5 := fun _ => "d41d8cd98f00b204e9800998ecf8427e"
  sha1 := fun _ => "da39a3ee5e6b4b0d3255bfef95601890afd80709"
  sha256 := fun _ => "e3b0c44298fc1c149afbf4c8996fb92427ae41e4649b934ca495991b7852b855"
  sha512 := fun _ => "cf83e1357eefb8bdf1542850d66d8007d620e4050b5715dc83f4a921d36ce9ce47d0d13c5d85f2b0ff8318d2877eec2f63b931bd47417a81a538327af927da3e"

open Classical in
/-- The byte values with positive observed probability. -/
noncomputable def support (c : List Byte) : Finset Byte :=
  Finset.univ.filter (fun i => 0 < byteProb c i)

lemma sum_count_univ (c : List Byte) : ∑ i : Byte, c.count i = c.length := by
  induction c with
  | nil => simp
  | cons a l ih =>
    have h : ∀ i : Byte, (a :: l).count i = l.count i + if a = i then 1 else 0 := by
      intro i
      simp [List.count_cons]
    simp only [h, Finset.sum_add_distrib, ih, List.length_cons]
    rw [Finset.sum_ite_eq Finset.univ a (fun _ => (1:ℕ))]
    simp

lemma byteProb_nonneg (c : List Byte) (i : Byte) : 0 ≤ byteProb c i :=
  div_nonneg (Nat.cast_nonneg _) (Nat.cast_nonneg _)

lemma byteProb_le_one (c : List Byte) (i : Byte) : byteProb c i ≤ 1 := by
  unfold byteProb
  rcases Nat.eq_zero_or_pos c.length with h0 | hp
  · rw [h0]
    simp
  · apply div_le_one_of_le₀
    · exact_mod_cast List.count_le_length i c
    · exact Nat.cast_nonneg _

lemma entropyRaw_nil : entropyRaw [] = 0 := by
  simp [entropyRaw, byteProb]

lemma entropyRaw_replicate (n : Nat) (b : Byte) :
    entropyRaw (List.replicate n b) = 0 := by
  rw [entropyRaw]
  refine Finset.sum_eq_zero fun i _ => ?_
  by_cases hib : i = b
  · subst hib
    rcases Nat.eq_zero_or_pos n with hn | hn
    · subst hn
      simp [byteProb]
    · have h1 : byteProb (List.replicate n i) i = 1 := by
        unfold byteProb
        rw [List.count_replicate_self, List.length_replicate]
        exact div_self (Nat.cast_ne_zero.mpr hn.ne')
      rw [h1]
      simp
  · have h0 : byteProb (List.replicate n b) i = 0 := by
      unfold byteProb
      have hbi : b ≠ i := fun h => hib h.symm
      simp [List.count_replicate, hbi]
    rw [h0]
    simp

lemma entropyRaw_nonneg (c : List Byte) : 0 ≤ entropyRaw c := by
  rw [entropyRaw]
  refine Finset.sum_nonneg fun i _ => ?_
  by_cases h : 0 < byteProb c i
  · rw [if_pos h]
    have hlogb : Real.logb 2 (byteProb c i) ≤ 0 :=
      Real.logb_nonpos one_lt_two h.le (byteProb_le_one c i)
    nlinarith
  · rw [if_neg h]

lemma entropyRaw_eq_spec (c : List Byte) : entropyRaw c = specShannonEntropy c := by
  unfold entropyRaw specShannonEntropy byteProb
  refine Finset.sum_congr rfl fun i _ => ?_
  rcases Nat.eq_zero_or_pos c.length with h0 | hp
  · have hnil : c = [] := List.length_eq_zero.mp h0
    subst hnil
    simp
  · have hl : (0:ℝ) < (c.length : ℝ) := Nat.cast_pos.mpr hp
    by_cases hc : 0 < c.count i
    · rw [if_pos (div_pos (by exact_mod_cast hc) hl), if_pos hc]
    · have hz : c.count i = 0 := Nat.eq_zero_of_not_pos hc
      rw [hz]
      simp

lemma concaveOn_logb_two : ConcaveOn ℝ (Set.Ioi 0) (Real.logb 2) := by
  have h := strictConcaveOn_log_Ioi.concaveOn.smul
    (c := (Real.log 2)⁻¹) (inv_nonneg.mpr (Real.log_nonneg one_le_two))
  convert h using 1
  funext x
  rw [smul_eq_mul, ← Real.log_div_log, div_eq_inv_mul]

open Classical in
lemma entropyRaw_eq_sum_support (c : List Byte) :
    entropyRaw c = ∑ i ∈ support c, -(byteProb c i) * Real.logb 2 (byteProb c i) := by
  rw [entropyRaw, support]
  rw [Finset.sum_filter]

lemma entropyRaw_le_eight (c : List Byte) : entropyRaw c ≤ 8 := by
  classical
  rcases Nat.eq_zero_or_pos c.length with h0 | hpos
  · rw [List.length_eq_zero.mp h0, entropyRaw_nil]
    norm_num
  have hn0 : (0:ℝ) < (c.length : ℝ) := Nat.cast_pos.mpr hpos
  have hsum_univ : ∑ i : Byte, byteProb c i = 1 := by
    unfold byteProb
    rw [← Finset.sum_div, ← Nat.cast_sum, sum_count_univ]
    exact div_self hn0.ne'
  have hsum_s : ∑ i ∈ support c, byteProb c i = 1 := by
    rw [support]
    refine Eq.trans (Finset.sum_filter_of_ne ?_) hsum_univ
    intro i _ hne
    exact (byteProb_nonneg c i).lt_of_ne (Ne.symm hne)
  have hmem : ∀ i ∈ support c, (byteProb c i)⁻¹ ∈ Set.Ioi (0:ℝ) := by
    intro i hi
    rw [support, Finset.mem_filter] at hi
    exact Set.mem_Ioi.mpr (inv_pos.mpr hi.2)
  have h₀ : ∀ i ∈ support c, 0 ≤ byteProb c i := fun i _ => byteProb_nonneg c i
  have hjen := concaveOn_logb_two.le_map_sum h₀ hsum_s hmem
  have hlhs : ∑ i ∈ support c, byteProb c i • Real.logb 2 ((byteProb c i)⁻¹)
      = entropyRaw c := by
    rw [entropyRaw_eq_sum_support]
    refine Finset.sum_congr rfl fun i hi => ?_
    rw [Real.logb_inv, smul_eq_mul]
    ring
  have hpts : ∑ i ∈ support c, byteProb c i • (byteProb c i)⁻¹
      = ((support c).card : ℝ) := by
    rw [Finset.sum_congr rfl (fun i hi => ?_), Finset.sum_const, nsmul_eq_mul, mul_one]
    rw [smul_eq_mul, mul_inv_cancel₀]
    rw [support, Finset.mem_filter] at hi
    exact hi.2.ne'
  have hcard_pos : 0 < (support c).card := by
    rcases Finset.eq_empty_or_nonempty (support c) with he | hne
    · rw [he] at hsum_s
      simp at hsum_s
    · exact Finset.card_pos.mpr hne
  have hcard_le : (((support c).card : ℕ) : ℝ) ≤ 256 := by
    have h1 : (support c).card ≤ 256 := by
      have := Finset.card_le_univ (support c)
      simpa using this
    exact_mod_cast h1
  have hlogb : Real.logb 2 (((support c).card : ℕ) : ℝ) ≤ 8 := by
    have h1 : Real.logb 2 (((support c).card : ℕ) : ℝ) ≤ Real.logb 2 256 :=
      Real.logb_le_logb_of_le one_lt_two (by exact_mod_cast hcard_pos) hcard_le
    have h2 : Real.logb 2 (256 : ℝ) = 8 := by
      rw [show (256:ℝ) = 2 ^ (8:ℕ) by norm_num, Real.logb_pow,
        Real.logb_self_eq_one one_lt_two]
      norm_num
    linarith
  calc entropyRaw c
      = ∑ i ∈ support c, byteProb c i • Real.logb 2 ((byteProb c i)⁻¹) := hlhs.symm
    _ ≤ Real.logb 2 (∑ i ∈ support c, byteProb c i • (byteProb c i)⁻¹) := hjen
    _ = Real.logb 2 (((support c).card : ℕ) : ℝ) := by rw [hpts]
    _ ≤ 8 := hlogb

lemma roundHundredths_nonneg {x : ℝ} (hx : 0 ≤ x) : 0 ≤ roundHundredths x := by
  unfold roundHundredths
  have h : (0:ℤ) ≤ round (x * 100) := by
    rw [round_eq]
    refine Int.le_floor.mpr ?_
    push_cast
    linarith
  have h2 : (0:ℝ) ≤ ((round (x * 100) : ℤ) : ℝ) := by exact_mod_cast h
  linarith

lemma roundHundredths_le_eight {x : ℝ} (hx : x ≤ 8) : roundHundredths x ≤ 8 := by
  unfold roundHundredths
  have h : round (x * 100) ≤ 800 := by
    rw [round_eq]
    have h1 : (x * 100 + 1/2 : ℝ) < ((801:ℤ) : ℝ) := by
      push_cast
      linarith
    have h2 := Int.floor_lt.mpr h1
    omega
  have h2 : ((round (x * 100) : ℤ) : ℝ) ≤ 800 := by exact_mod_cast h
  linarith

lemma roundHundredths_zero : roundHundredths 0 = 0 := by
  simp [roundHundredths]

lemma Entropy_regular (p : String) (c : List Byte) (hp : p ≠ "")
    (hsz : c.length ≤ constMaxFileSize) :
    Entropy ⟨p, FileKind.regular c⟩ =
      Except.ok (if c.length = 0 then (0:ℝ) else roundHundredths (entropyRaw c)) := by
  by_cases h0 : c.length = 0
  · simp [Entropy, hp, h0]
  · simp [Entropy, hp, h0, Nat.not_lt.mpr hsz]

lemma hashFile_regular (alg : List Byte → String) (p : String) (c : List Byte)
    (hp : p ≠ "") (hsz : c.length ≤ constMaxFileSize) :
    hashFile alg ⟨p, FileKind.regular c⟩ =
      Except.ok (if c.length = 0 then "" else alg c) := by
  by_cases h0 : c.length = 0
  · simp [hashFile, hp, h0]
  · simp [hashFile, hp, h0, Nat.not_lt.mpr hsz]

lemma Entropy_error_iff (p : String) (c : List Byte) (hp : p ≠ "") :
    (∃ e, Entropy ⟨p, FileKind.regular c⟩ = Except.error e)
      ↔ constMaxFileSize < c.length := by
  by_cases h0 : c.length = 0
  · simp [Entropy, hp, h0]
  · by_cases hbig : constMaxFileSize < c.length
    · simp [Entropy, hp, h0, hbig]
    · simp [Entropy, hp, h0, hbig]

lemma hashFile_error_iff (alg : List Byte → String) (p : String) (c : List Byte)
    (hp : p ≠ "") :
    (∃ e, hashFile alg ⟨p, FileKind.regular c⟩ = Except.error e)
      ↔ constMaxFileSize < c.length := by
  by_cases h0 : c.length = 0
  · simp [hashFile, hp, h0]
  · by_cases hbig : constMaxFileSize < c.length
    · simp [hashFile, hp, h0, hbig]
    · simp [hashFile, hp, h0, hbig]

lemma IsElfType_regular_isOk (p : String) (c : List Byte) (hp : p ≠ "") :
    ∃ b, IsElfType ⟨p, FileKind.regular c⟩ = Except.ok b := by
  by_cases h1 : c.length < constMagicNumRead
  · exact ⟨false, by simp [IsElfType, hp, h1]⟩
  · by_cases h2 : c.take constMagicNumRead = constMagicNumElf
    · exact ⟨true, by simp [IsElfType, hp, h1, h2]⟩
    · exact ⟨false, by simp [IsElfType, hp, h1, h2]⟩

/-- C1: for every regular-file target within the size ceiling, `Entropy`
returns the spec's Shannon entropy over the 256-value byte histogram —
the sum of `-p * log2 p` over byte values with probability
`p = count/size > 0` — rounded to two decimal places; the value lies in
`[0, 8]`, is `0` for a zero-length file, and is `0` for content that is a
single repeated byte value. -/
theorem Entropy_shannon_spec (t : Target) (c : List Byte)
    (hk : t.kind = FileKind.regular c) (hp : t.path ≠ "")
    (hsz : c.length ≤ constMaxFileSize) :
    ∃ r, Entropy t = Except.ok r ∧
      r = roundHundredths (specShannonEntropy c) ∧
      0 ≤ r ∧ r ≤ 8 ∧
      (c = [] → r = 0) ∧
      (∀ b n, 0 < n → c = List.replicate n b → r = 0) := by
  obtain ⟨p, k⟩ := t
  dsimp only at hk hp
  subst hk
  rw [Entropy_regular p c hp hsz]
  refine ⟨_, rfl, ?_, ?_, ?_, ?_, ?_⟩
  · by_cases h0 : c.length = 0
    · rw [if_pos h0, ← entropyRaw_eq_spec, List.length_eq_zero.mp h0,
        entropyRaw_nil, roundHundredths_zero]
    · rw [if_neg h0, entropyRaw_eq_spec]
  · by_cases h0 : c.length = 0
    · rw [if_pos h0]
    · rw [if_neg h0]
      exact roundHundredths_nonneg (entropyRaw_nonneg c)
  · by_cases h0 : c.length = 0
    · rw [if_pos h0]
      norm_num
    · rw [if_neg h0]
      exact roundHundredths_le_eight (entropyRaw_le_eight c)
  · intro hnil
    rw [if_pos (by rw [hnil]; rfl)]
  · intro b n hn hrep
    by_cases h0 : c.length = 0
    · rw [if_pos h0]
    · rw [if_neg h0, hrep, entropyRaw_replicate, roundHundredths_zero]

/-- Witness for `Entropy_shannon_spec` at the concrete file holding three
copies of byte 65. -/
theorem Entropy_shannon_spec_witness :
    ∃ r, Entropy ⟨"/tmp/aaa", FileKind.regular (List.replicate 3 (65:Byte))⟩ =
        Except.ok r ∧
      r = roundHundredths (specShannonEntropy (List.replicate 3 (65:Byte))) ∧
      0 ≤ r ∧ r ≤ 8 ∧
      (List.replicate 3 (65:Byte) = [] → r = 0) ∧
      (∀ b n, 0 < n → List.replicate 3 (65:Byte) = List.replicate n b → r = 0) :=
  Entropy_shannon_spec ⟨"/tmp/aaa", FileKind.regular (List.replicate 3 (65:Byte))⟩ _
    rfl (by decide) (by norm_num [constMaxFileSize])

/-- C5: for every regular-file target, the entropy computation and each of
the four digest computations fail if and only if the file size strictly
exceeds 2,147,483,648 bytes; in particular a file of exactly that size is
processed without a size error, and entropy and digests fail on exactly
the same size violations. -/
theorem sizeCeiling_spec (a : HashAlgs) (t : Target) (c : List Byte)
    (hk : t.kind = FileKind.regular c) (hp : t.path ≠ "") :
    ((∃ e, Entropy t = Except.error e) ↔ 2147483648 < c.length) ∧
    ((∃ e, HashMD5 a t = Except.error e) ↔ 2147483648 < c.length) ∧
    ((∃ e, HashSHA1 a t = Except.error e) ↔ 2147483648 < c.length) ∧
    ((∃ e, HashSHA256 a t = Except.error e) ↔ 2147483648 < c.length) ∧
    ((∃ e, HashSHA512 a t = Except.error e) ↔ 2147483648 < c.length) := by
  obtain ⟨p, k⟩ := t
  dsimp only at hk hp
  subst hk
  have hmax : constMaxFileSize = 2147483648 := rfl
  refine ⟨?_, ?_, ?_, ?_, ?_⟩
  · rw [← hmax]
    exact Entropy_error_iff p c hp
  · rw [← hmax]
    exact hashFile_error_iff a.md5 p c hp
  · rw [← hmax]
    exact hashFile_error_iff a.sha1 p c hp
  · rw [← hmax]
    exact hashFile_error_iff a.sha256 p c hp
  · rw [← hmax]
    exact hashFile_error_iff a.sha512 p c hp

/-- Witness for `sizeCeiling_spec`: a file one byte over the ceiling fails
entropy and MD5, a file of exactly 2,147,483,648 bytes fails neither. -/
theorem sizeCeiling_spec_witness :
    (∃ e, Entropy ⟨"/tmp/big", FileKind.regular (List.replicate 2147483649 (0:Byte))⟩ =
      Except.error e) ∧
    (¬ ∃ e, Entropy ⟨"/tmp/edge", FileKind.regular (List.replicate 2147483648 (0:Byte))⟩ =
      Except.error e) ∧
    (∃ e, HashMD5 demoAlgs ⟨"/tmp/big", FileKind.regular (List.replicate 2147483649 (0:Byte))⟩ =
      Except.error e) ∧
    (¬ ∃ e, HashMD5 demoAlgs
      ⟨"/tmp/edge", FileKind.regular (List.replicate 2147483648 (0:Byte))⟩ =
      Except.error e) := by
  have hbig : (2147483648:Nat) < (List.replicate 2147483649 (0:Byte)).length := by
    rw [List.length_replicate]
    norm_num
  have hedge : ¬ (2147483648:Nat) < (List.replicate 2147483648 (0:Byte)).length := by
    rw [List.length_replicate]
    norm_num
  refine ⟨?_, fun h => ?_, ?_, fun h => ?_⟩
  · exact (sizeCeiling_spec demoAlgs _ _ rfl (by decide)).1.mpr hbig
  · exact hedge ((sizeCeiling_spec demoAlgs _ _ rfl (by decide)).1.mp h)
  · exact (sizeCeiling_spec demoAlgs _ _ rfl (by decide)).2.1.mpr hbig
  · exact hedge ((sizeCeiling_spec demoAlgs _ _ rfl (by decide)).2.1.mp h)

lemma IsElfType_regular_ok_true_iff (p : String) (c : List Byte) (hp : p ≠ "") :
    IsElfType ⟨p, FileKind.regular c⟩ = Except.ok true ↔
      constMagicNumRead ≤ c.length ∧ c.take constMagicNumRead = constMagicNumElf := by
  by_cases h1 : c.length < constMagicNumRead
  · simp [IsElfType, hp, h1, Nat.not_le.mpr h1]
  · by_cases h2 : c.take constMagicNumRead = constMagicNumElf
    · simp [IsElfType, hp, h1, h2, Nat.not_lt.mp h1]
    · simp [IsElfType, hp, h1, h2]

/-- C2 (amended): `IsElfType` returns `true` exactly for a regular file of
at least 4 bytes whose first 4 bytes are the ELF magic `7F 45 4C 46`; a
shorter regular file returns `false` with no error; an openable
non-regular file (device, FIFO) returns `false` with no error; but a
target that cannot be opened at all (e.g. a broken symbolic link) returns
`false` together with a non-nil error. -/
theorem IsElfType_spec (t : Target) (hp : t.path ≠ "") :
    (IsElfType t = Except.ok true ↔
      ∃ c, t.kind = FileKind.regular c ∧ constMagicNumRead ≤ c.length ∧
        c.take constMagicNumRead = constMagicNumElf) ∧
    (∀ c, t.kind = FileKind.regular c → c.length < constMagicNumRead →
      IsElfType t = Except.ok false) ∧
    (t.kind = FileKind.notRegular → IsElfType t = Except.ok false) ∧
    (t.kind = FileKind.noFile → ∃ e, IsElfType t = Except.error e) := by
  obtain ⟨p, k⟩ := t
  dsimp only at hp
  refine ⟨?_, ?_, ?_, ?_⟩
  · cases k with
    | noFile => simp [IsElfType, hp]
    | notRegular => simp [IsElfType, hp]
    | regular c =>
      rw [IsElfType_regular_ok_true_iff p c hp]
      constructor
      · intro h
        exact ⟨c, rfl, h.1, h.2⟩
      · rintro ⟨c2, hc2, h4, hm⟩
        obtain rfl : c = c2 := by injection hc2
        exact ⟨h4, hm⟩
  · intro c hc hlen
    obtain rfl : k = FileKind.regular c := hc
    simp [IsElfType, hp, hlen]
  · intro hc
    obtain rfl : k = FileKind.notRegular := hc
    simp [IsElfType, hp]
  · intro hc
    obtain rfl : k = FileKind.noFile := hc
    exact ⟨"open (" ++ p ++ "): cannot open", by simp [IsElfType, hp]⟩

/-- Witness for `IsElfType_spec` at a concrete 5-byte ELF-magic file. -/
theorem IsElfType_spec_witness :
    IsElfType ⟨"/bin/sh", FileKind.regular [0x7f, 0x45, 0x4c, 0x46, 0x00]⟩ =
      Except.ok true ↔
    ∃ c, (Target.mk "/bin/sh"
        (FileKind.regular [0x7f, 0x45, 0x4c, 0x46, 0x00])).kind = FileKind.regular c ∧
      constMagicNumRead ≤ c.length ∧ c.take constMagicNumRead = constMagicNumElf :=
  (IsElfType_spec ⟨"/bin/sh", FileKind.regular [0x7f, 0x45, 0x4c, 0x46, 0x00]⟩
    (by decide)).1

/-- C2 counterexample: a broken symbolic link is a non-regular target, but
`IsElfType` cannot even open it and therefore returns `false` together
with a non-nil error, not the error-free `false` the claim states. -/
theorem IsElfType_brokenSymlink_cex :
    IsElfType ⟨"/tmp/dangling", FileKind.noFile⟩ =
      Except.error ("open (" ++ "/tmp/dangling" ++ "): cannot open") ∧
    ∀ b : Bool, IsElfType ⟨"/tmp/dangling", FileKind.noFile⟩ ≠ Except.ok b := by
  constructor
  · simp [IsElfType]
  · intro b
    simp [IsElfType]

lemma checkFilePath_compute (a : HashAlgs) (p : String) (c : List Byte) (eo : Bool)
    (θ : ℝ) (isElf : Bool) (hp : p ≠ "") (hsz : c.length ≤ constMaxFileSize)
    (helf : IsElfType ⟨p, FileKind.regular c⟩ = Except.ok isElf)
    (hcomp : eo = false ∨ isElf = true) :
    checkFilePath a ⟨p, FileKind.regular c⟩ eo θ =
      CheckResult.ok
        { path := p, name := baseName p,
          entropy := if c.length = 0 then (0:ℝ) else roundHundredths (entropyRaw c),
          elf := isElf,
          hash :=
            if θ ≤ (if c.length = 0 then (0:ℝ) else roundHundredths (entropyRaw c)) then
              { md5 := if c.length = 0 then "" else a.md5 c,
                sha1 := if c.length = 0 then "" else a.sha1 c,
                sha256 := if c.length = 0 then "" else a.sha256 c,
                sha512 := if c.length = 0 then "" else a.sha512 c }
            else {} } := by
  have hent := Entropy_regular p c hp hsz
  have h1 := hashFile_regular a.md5 p c hp hsz
  have h2 := hashFile_regular a.sha1 p c hp hsz
  have h3 := hashFile_regular a.sha256 p c hp hsz
  have h4 := hashFile_regular a.sha512 p c hp hsz
  rcases hcomp with heo | hElf
  · subst heo
    simp [checkFilePath, helf, HashMD5, HashSHA1, HashSHA256, HashSHA512,
      h1, h2, h3, h4, hent]
    split <;> split <;> rfl
  · subst hElf
    cases eo with
    | false =>
      simp [checkFilePath, helf, HashMD5, HashSHA1, HashSHA256, HashSHA512,
        h1, h2, h3, h4, hent]
      split <;> split <;> rfl
    | true =>
      simp [checkFilePath, helf, HashMD5, HashSHA1, HashSHA256, HashSHA512,
        h1, h2, h3, h4, hent]
      split <;> split <;> rfl

/-- C4: with `elfOnly = true` and a threshold in `[0, 8]`, a target whose
signature check returns `isELF = false` produces a record with the
sentinel entropy `-1` (entropy never computed) and all four digest strings
empty (digests never computed). -/
theorem checkFilePath_elfOnly_skip (a : HashAlgs) (t : Target) (θ : ℝ)
    (h0 : 0 ≤ θ) (h8 : θ ≤ 8) (helf : IsElfType t = Except.ok false) :
    checkFilePath a t true θ =
      CheckResult.ok
        { path := t.path, name := baseName t.path, entropy := -1, elf := false,
          hash := { md5 := "", sha1 := "", sha256 := "", sha512 := "" } } := by
  have hneg : ¬ (θ ≤ (-1:ℝ)) := by linarith
  simp [checkFilePath, helf, hneg]

/-- Witness for `checkFilePath_elfOnly_skip` at a concrete non-ELF target. -/
theorem checkFilePath_elfOnly_skip_witness :
    checkFilePath demoAlgs ⟨"/dev/null", FileKind.notRegular⟩ true 0 =
      CheckResult.ok
        { path := "/dev/null", name := baseName "/dev/null", entropy := -1, elf := false,
          hash := { md5 := "", sha1 := "", sha256 := "", sha512 := "" } } :=
  checkFilePath_elfOnly_skip demoAlgs ⟨"/dev/null", FileKind.notRegular⟩ 0 le_rfl
    (by norm_num) (by simp [IsElfType])

/-- C3 (amended): when the classifier computes entropy for a regular-file
target, the record's four digest strings are non-empty exactly when the
entropy meets the threshold AND the file is nonempty: the threshold
comparison is inclusive, but a zero-length file's digests stay empty
strings even when the hash functions are invoked, because each hash
function returns the empty string for a zero-sized file. -/
theorem checkFilePath_digest_gate (a : HashAlgs) (t : Target) (c : List Byte)
    (eo : Bool) (θ : ℝ)
    (hk : t.kind = FileKind.regular c) (hp : t.path ≠ "")
    (hsz : c.length ≤ constMaxFileSize)
    (hcomp : eo = false ∨ IsElfType t = Except.ok true)
    (ha : ∀ x : List Byte, x ≠ [] →
      a.md5 x ≠ "" ∧ a.sha1 x ≠ "" ∧ a.sha256 x ≠ "" ∧ a.sha512 x ≠ "") :
    ∃ fd, checkFilePath a t eo θ = CheckResult.ok fd ∧ 0 ≤ fd.entropy ∧
      ((fd.hash.md5 ≠ "" ∧ fd.hash.sha1 ≠ "" ∧ fd.hash.sha256 ≠ "" ∧ fd.hash.sha512 ≠ "")
        ↔ (θ ≤ fd.entropy ∧ c ≠ [])) := by
  obtain ⟨p, k⟩ := t
  dsimp only at hk hp hcomp
  subst hk
  have hex : ∃ b, IsElfType ⟨p, FileKind.regular c⟩ = Except.ok b ∧
      (eo = false ∨ b = true) := by
    rcases hcomp with heo | hElf
    · obtain ⟨b, hb⟩ := IsElfType_regular_isOk p c hp
      exact ⟨b, hb, Or.inl heo⟩
    · exact ⟨true, hElf, Or.inr rfl⟩
  obtain ⟨isElf, helf, hcomp2⟩ := hex
  rw [checkFilePath_compute a p c eo θ isElf hp hsz helf hcomp2]
  refine ⟨_, rfl, ?_, ?_⟩
  · by_cases h0 : c.length = 0
    · simp [h0]
    · simp [h0, roundHundredths_nonneg (entropyRaw_nonneg c)]
  · by_cases hθ : θ ≤ (if c.length = 0 then (0:ℝ) else roundHundredths (entropyRaw c))
    · by_cases h0 : c.length = 0
      · have hnil : c = [] := List.length_eq_zero.mp h0
        rw [if_pos h0] at hθ
        simp [hθ, h0, hnil]
      · have hne : c ≠ [] := fun hnil => h0 (by rw [hnil]; rfl)
        obtain ⟨ha1, ha2, ha3, ha4⟩ := ha c hne
        rw [if_neg h0] at hθ
        simp [hθ, h0, hne, ha1, ha2, ha3, ha4]
    · simp only [List.length_eq_zero] at hθ
      simp [hθ]

/-- Witness for `checkFilePath_digest_gate` at a concrete 4-byte file with
threshold 0 and non-degenerate digest primitives. -/
theorem checkFilePath_digest_gate_witness :
    ∃ fd, checkFilePath demoAlgs ⟨"/tmp/f", FileKind.regular [0, 0, 0, 0]⟩ false 0 =
        CheckResult.ok fd ∧ 0 ≤ fd.entropy ∧
      ((fd.hash.md5 ≠ "" ∧ fd.hash.sha1 ≠ "" ∧ fd.hash.sha256 ≠ "" ∧ fd.hash.sha512 ≠ "")
        ↔ (0 ≤ fd.entropy ∧ ([0, 0, 0, 0] : List Byte) ≠ [])) :=
  checkFilePath_digest_gate demoAlgs ⟨"/tmp/f", FileKind.regular [0, 0, 0, 0]⟩
    [0, 0, 0, 0] false 0 rfl (by decide) (by norm_num [constMaxFileSize])
    (Or.inl rfl) (fun x _ => by simp [demoAlgs])

/-- C3 counterexample: a zero-length regular file scanned with
`elfOnly = false` and threshold `0` gets its entropy computed (`0`, which
meets the threshold `0`), yet all four digest strings of the produced
record are empty, contradicting the claim that digests are non-empty
whenever the computed entropy is at least the threshold. -/
theorem checkFilePath_zeroFile_cex :
    checkFilePath demoAlgs ⟨"/tmp/empty", FileKind.regular []⟩ false 0 =
      CheckResult.ok
        { path := "/tmp/empty", name := baseName "/tmp/empty", entropy := 0, elf := false,
          hash := { md5 := "", sha1 := "", sha256 := "", sha512 := "" } } := by
  rw [checkFilePath_compute demoAlgs "/tmp/empty" [] false 0 false (by decide)
    (by norm_num [constMaxFileSize]) (by simp [IsElfType, constMagicNumRead]) (Or.inl rfl)]
  norm_num

/-- C9 (amended): a non-regular-file target always yields the benign
negative signature result `isELF = false` with no error; with
`elfOnly = true` the classifier then returns a record without computing
entropy or digests; but with `elfOnly = false` the entropy computation
fails and `checkFilePath` routes that failure to `log.Fatalf`, terminating
the scanning process. -/
theorem nonRegular_classification (a : HashAlgs) (t : Target) (θ : ℝ)
    (hk : t.kind = FileKind.notRegular) (hp : t.path ≠ "")
    (h0 : 0 ≤ θ) (h8 : θ ≤ 8) :
    IsElfType t = Except.ok false ∧
    checkFilePath a t true θ =
      CheckResult.ok
        { path := t.path, name := baseName t.path, entropy := -1, elf := false,
          hash := { md5 := "", sha1 := "", sha256 := "", sha512 := "" } } ∧
    checkFilePath a t false θ =
      CheckResult.fatal
        ("file (" ++ t.path ++ ") is not a regular file to calculate entropy") := by
  obtain ⟨p, k⟩ := t
  dsimp only at hk hp ⊢
  subst hk
  have helf : IsElfType ⟨p, FileKind.notRegular⟩ = Except.ok false := by
    simp [IsElfType, hp]
  have hent : Entropy ⟨p, FileKind.notRegular⟩ =
      Except.error ("file (" ++ p ++ ") is not a regular file to calculate entropy") := by
    simp [Entropy, hp]
  have hneg : ¬ (θ ≤ (-1:ℝ)) := by linarith
  refine ⟨helf, ?_, ?_⟩
  · simp [checkFilePath, helf, hneg]
  · simp [checkFilePath, helf, hent]

/-- Witness for `nonRegular_classification` at the device file /dev/null
with threshold 0. -/
theorem nonRegular_classification_witness :
    IsElfType ⟨"/dev/null", FileKind.notRegular⟩ = Except.ok false ∧
    checkFilePath demoAlgs ⟨"/dev/null", FileKind.notRegular⟩ true 0 =
      CheckResult.ok
        { path := "/dev/null", name := baseName "/dev/null", entropy := -1, elf := false,
          hash := { md5 := "", sha1 := "", sha256 := "", sha512 := "" } } ∧
    checkFilePath demoAlgs ⟨"/dev/null", FileKind.notRegular⟩ false 0 =
      CheckResult.fatal
        ("file (" ++ "/dev/null" ++ ") is not a regular file to calculate entropy") :=
  nonRegular_classification demoAlgs ⟨"/dev/null", FileKind.notRegular⟩ 0 rfl
    (by decide) le_rfl (by norm_num)

/-- C9 counterexample: classifying the non-regular target /dev/null with
`elfOnly = false` terminates the scanning process through `log.Fatalf`
(the `fatal` outcome), contradicting the claim that a non-regular target
by itself never causes the scanning process to crash or terminate. -/
theorem nonRegular_fatal_cex :
    checkFilePath demoAlgs ⟨"/dev/null", FileKind.notRegular⟩ false 0 =
      CheckResult.fatal
        ("file (" ++ "/dev/null" ++ ") is not a regular file to calculate entropy") := by
  have helf : IsElfType ⟨"/dev/null", FileKind.notRegular⟩ = Except.ok false := by
    simp [IsElfType]
  have hent : Entropy ⟨"/dev/null", FileKind.notRegular⟩ =
      Except.error
        ("file (" ++ "/dev/null" ++ ") is not a regular file to calculate entropy") := by
    simp [Entropy]
  simp [checkFilePath, helf, hent]

lemma checkFilePath_no_err (a : HashAlgs) (t : Target) (eo : Bool) (θ : ℝ) (b : Bool)
    (helf : IsElfType t = Except.ok b) (e : String) :
    checkFilePath a t eo θ ≠ CheckResult.err e := by
  simp only [checkFilePath, helf]
  repeat' split
  all_goals simp

/-- C10: `checkFilePath` returns a non-nil error to its caller if and only
if the ELF signature check returns an error; a failure of the entropy
computation is never returned as an error and instead terminates the
program through `log.Fatalf`. -/
theorem checkFilePath_error_source (a : HashAlgs) (t : Target) (eo : Bool) (θ : ℝ) :
    (∀ e, checkFilePath a t eo θ = CheckResult.err e ↔ IsElfType t = Except.error e) ∧
    (∀ em b, eo = false → IsElfType t = Except.ok b → Entropy t = Except.error em →
      checkFilePath a t eo θ = CheckResult.fatal em) := by
  constructor
  · intro e
    constructor
    · intro h
      cases helf : IsElfType t with
      | error e2 =>
        have hc : checkFilePath a t eo θ = CheckResult.err e2 := by
          simp [checkFilePath, helf]
        rw [hc] at h
        injection h with h2
        rw [← h2]
      | ok b => exact absurd h (checkFilePath_no_err a t eo θ b helf e)
    · intro h
      simp [checkFilePath, h]
  · intro em b heo helf hent
    subst heo
    simp [checkFilePath, helf, hent]

/-- Witness for `checkFilePath_error_source`: the entropy failure on the
non-regular target /dev/null ends in the fatal outcome, and the
error-return equivalence instantiated at the same target. -/
theorem checkFilePath_error_source_witness :
    checkFilePath demoAlgs ⟨"/dev/null", FileKind.notRegular⟩ false 0 =
      CheckResult.fatal
        ("file (" ++ "/dev/null" ++ ") is not a regular file to calculate entropy") ∧
    (checkFilePath demoAlgs ⟨"/dev/null", FileKind.notRegular⟩ false 0 =
        CheckResult.err "boom" ↔
      IsElfType ⟨"/dev/null", FileKind.notRegular⟩ = Except.error "boom") := by
  constructor
  · exact (checkFilePath_error_source demoAlgs ⟨"/dev/null", FileKind.notRegular⟩
      false 0).2
      ("file (" ++ "/dev/null" ++ ") is not a regular file to calculate entropy") false
      rfl (by simp [IsElfType]) (by simp [Entropy])
  · exact (checkFilePath_error_source demoAlgs ⟨"/dev/null", FileKind.notRegular⟩
      false 0).1 "boom"

/-- C6: `genPIDExePaths` always succeeds (nil error) and produces exactly
`constMaxPID - constMinPID = 4194303` candidate paths, the `i`-th
(0-based) being `/proc/<constMinPID + i>/exe`: one path per pid in
increasing order over `[1, 4194304)`, by pure path construction. -/
theorem genPIDExePaths_spec (i : Nat) (h : i < constMaxPID - constMinPID) :
    ∃ ps, genPIDExePaths = Except.ok ps ∧
      ps.length = constMaxPID - constMinPID ∧ ps.length = 4194303 ∧
      ps[i]? = some (constProcDir ++ "/" ++ toString (constMinPID + i) ++ "/exe") := by
  refine ⟨_, rfl, ?_, ?_, ?_⟩
  · rw [List.length_map, List.length_range']
  · rw [List.length_map, List.length_range']
    norm_num [constMaxPID, constMinPID]
  · rw [List.getElem?_map, List.getElem?_range' _ _ h]
    simp

/-- Witness for `genPIDExePaths_spec` at index 0 (pid 1). -/
theorem genPIDExePaths_spec_witness :
    (0:Nat) < constMaxPID - constMinPID ∧
    ∃ ps, genPIDExePaths = Except.ok ps ∧
      ps.length = constMaxPID - constMinPID ∧ ps.length = 4194303 ∧
      ps[0]? = some (constProcDir ++ "/" ++ toString (constMinPID + 0) ++ "/exe") :=
  ⟨by norm_num [constMaxPID, constMinPID],
    genPIDExePaths_spec 0 (by norm_num [constMaxPID, constMinPID])⟩

/-- C7: in the process sweep (`elfOnly` forced true), a candidate whose
open fails produces no record, and the sweep of the remaining candidates
is exactly what it would have been without the failing candidate: an open
failure never aborts the enumeration. -/
theorem procSweep_skip (a : HashAlgs) (θ : ℝ) (t : Target) (ts : List Target)
    (h : t.kind = FileKind.noFile) :
    procSweep a θ (t :: ts) = procSweep a θ ts := by
  obtain ⟨p, k⟩ := t
  dsimp only at h
  subst h
  have herr : ∃ e, IsElfType ⟨p, FileKind.noFile⟩ = Except.error e := by
    by_cases hp : p = ""
    · exact ⟨"must provide a path to file to get ELF type", by simp [IsElfType, hp]⟩
    · exact ⟨"open (" ++ p ++ "): cannot open", by simp [IsElfType, hp]⟩
  obtain ⟨e, he⟩ := herr
  have hc : checkFilePath a ⟨p, FileKind.noFile⟩ true θ = CheckResult.err e := by
    simp [checkFilePath, he]
  simp [procSweep, hc]

/-- Witness for `procSweep_skip` at a concrete nonexistent pid candidate. -/
theorem procSweep_skip_witness :
    procSweep demoAlgs 0 [⟨"/proc/54321/exe", FileKind.noFile⟩] =
      procSweep demoAlgs 0 [] :=
  procSweep_skip demoAlgs 0 ⟨"/proc/54321/exe", FileKind.noFile⟩ [] rfl

/-- C8 (amended): hashing a zero-length regular file yields the empty
string for each of the four digest functions — the zero-size early return
fires and the digest primitive is never invoked — rather than the
well-known empty-input digest value of the algorithm. -/
theorem hash_empty_file (a : HashAlgs) (t : Target)
    (hk : t.kind = FileKind.regular []) (hp : t.path ≠ "") :
    HashMD5 a t = Except.ok "" ∧ HashSHA1 a t = Except.ok "" ∧
    HashSHA256 a t = Except.ok "" ∧ HashSHA512 a t = Except.ok "" := by
  obtain ⟨p, k⟩ := t
  dsimp only at hk hp
  subst hk
  refine ⟨?_, ?_, ?_, ?_⟩ <;>
    simp [HashMD5, HashSHA1, HashSHA256, HashSHA512, hashFile, hp]

/-- Witness for `hash_empty_file` at a concrete zero-length file. -/
theorem hash_empty_file_witness :
    HashMD5 demoAlgs ⟨"/tmp/zero", FileKind.regular []⟩ = Except.ok "" ∧
    HashSHA1 demoAlgs ⟨"/tmp/zero", FileKind.regular []⟩ = Except.ok "" ∧
    HashSHA256 demoAlgs ⟨"/tmp/zero", FileKind.regular []⟩ = Except.ok "" ∧
    HashSHA512 demoAlgs ⟨"/tmp/zero", FileKind.regular []⟩ = Except.ok "" :=
  hash_empty_file demoAlgs ⟨"/tmp/zero", FileKind.regular []⟩ rfl (by decide)

/-- C8 counterexample: on a zero-length regular file `HashMD5` returns the
empty string — not the documented MD5 empty-input digest — even though the
digest primitive in use (`demoAlgs.md5`) returns exactly that documented
value on every input, because the zero-size early return skips hashing. -/
theorem hash_empty_cex :
    HashMD5 demoAlgs ⟨"/tmp/zero", FileKind.regular []⟩ = Except.ok "" ∧
    demoAlgs.md5 [] = "d41d8cd98f00b204e9800998ecf8427e" ∧
    ("" : String) ≠ "d41d8cd98f00b204e9800998ecf8427e" := by
  refine ⟨?_, rfl, by decide⟩
  simp [HashMD5, hashFile]

end EntropyScan
